import Mathlib

/-!
Verification of the cost-analytics engine of a multi-cloud cost dashboard
(`anomalyDetectionService.js`, `analyticsEngine.js`, `aiInsightsEngine.js`,
`costAnalyticsService.js`).  JavaScript numbers are modelled as exact
rationals extended with the IEEE special values `NaN`, `Infinity` and
`-Infinity`; `Math.sqrt`, which returns an irrational value in general, is
reflected into the statements through `Real.sqrt`.
-/

/-- Model of a JavaScript number: an exact finite value (rational in the
fragment exercised here), or one of the special values `NaN`, `Infinity`,
`-Infinity`.  The negative zero of IEEE 754 is identified with `0`, which is
sound for the arithmetic appearing in this code base (no expression here
distinguishes `0` from `-0`). -/
inductive JSVal where
  | fin (q : ℚ)
  | nan
  | inf
  | ninf
deriving DecidableEq, Repr

namespace JSVal

/-- JavaScript unary minus. -/
def neg : JSVal → JSVal
  | fin q => fin (-q)
  | nan => nan
  | inf => ninf
  | ninf => inf

/-- JavaScript addition on extended numbers. -/
def add : JSVal → JSVal → JSVal
  | nan, _ => nan
  | fin _, nan => nan
  | inf, nan => nan
  | ninf, nan => nan
  | fin a, fin b => fin (a + b)
  | fin _, inf => inf
  | fin _, ninf => ninf
  | inf, fin _ => inf
  | inf, inf => inf
  | inf, ninf => nan
  | ninf, fin _ => ninf
  | ninf, inf => nan
  | ninf, ninf => ninf

/-- JavaScript subtraction, `a - b = a + (-b)`. -/
def sub (a b : JSVal) : JSVal := add a (neg b)

/-- JavaScript multiplication; `Infinity * 0 = NaN`, otherwise infinities
follow the sign rule. -/
def mul : JSVal → JSVal → JSVal
  | nan, _ => nan
  | fin _, nan => nan
  | inf, nan => nan
  | ninf, nan => nan
  | fin a, fin b => fin (a * b)
  | fin a, inf => if a = 0 then nan else if 0 < a then inf else ninf
  | fin a, ninf => if a = 0 then nan else if 0 < a then ninf else inf
  | inf, fin b => if b = 0 then nan else if 0 < b then inf else ninf
  | ninf, fin b => if b = 0 then nan else if 0 < b then ninf else inf
  | inf, inf => inf
  | inf, ninf => ninf
  | ninf, inf => ninf
  | ninf, ninf => inf

/-- JavaScript division: a nonzero finite value divided by `0` gives a signed
infinity, `0 / 0` gives `NaN`, a finite value divided by an infinity gives
`0`, an infinity divided by an infinity gives `NaN`.  The divisor literal `0`
stands for IEEE `+0`, which is what the expressions in this code base
produce. -/
def div : JSVal → JSVal → JSVal
  | nan, _ => nan
  | fin _, nan => nan
  | inf, nan => nan
  | ninf, nan => nan
  | fin a, fin b =>
      if b = 0 then (if a = 0 then nan else if 0 < a then inf else ninf)
      else fin (a / b)
  | fin _, inf => fin 0
  | fin _, ninf => fin 0
  | inf, fin b => if 0 ≤ b then inf else ninf
  | ninf, fin b => if 0 ≤ b then ninf else inf
  | inf, inf => nan
  | inf, ninf => nan
  | ninf, inf => nan
  | ninf, ninf => nan

/-- JavaScript strict greater-than; any comparison with `NaN` is false. -/
def gt : JSVal → JSVal → Bool
  | nan, _ => false
  | fin _, nan => false
  | inf, nan => false
  | ninf, nan => false
  | fin a, fin b => decide (b < a)
  | fin _, inf => false
  | fin _, ninf => true
  | inf, fin _ => true
  | inf, inf => false
  | inf, ninf => true
  | ninf, _ => false

/-- True exactly on finite values. -/
def isFinite : JSVal → Bool
  | fin _ => true
  | _ => false

end JSVal

/-- The value of `parseFloat(x.toFixed(2))` for an exact rational `x`:
rounding to two decimal places, ties resolved towards the larger integer
numerator as specified for `Number.prototype.toFixed`. -/
def roundTo2 (q : ℚ) : ℚ := (⌊q * 100 + 1 / 2⌋ : ℚ) / 100

/-- `parseFloat(x.toFixed(2))` on a JavaScript number: the special values are
printed as `NaN` and `Infinity` and parsed back unchanged. -/
def jsToFixed2 : JSVal → JSVal
  | JSVal.fin q => JSVal.fin (roundTo2 q)
  | v => v

/-- A day of the daily-cost series: an opaque day identifier together with
the day's total cost (`{date, total}` in the source; the per-provider
breakdown and string fields are not read by the analytics under study). -/
structure DailyCost where
  date : ℕ
  total : ℚ
deriving DecidableEq, Repr

namespace AnomalyDetectionService

/-- Result of `calculateStatistics`.  The source stores
`stdDev = Math.sqrt(variance)`; the (generally irrational) standard
deviation is recovered in the statements as `Real.sqrt variance`. -/
structure Stats where
  mean : ℚ
  variance : ℚ
  statMin : ℚ
  statMax : ℚ
deriving DecidableEq, Repr

/-- `AnomalyDetectionService.calculateStatistics` (lines 12-23): mean and
population variance of a list of values, with `Math.min`/`Math.max`; an
empty input returns the zeroed record. -/
def calculateStatistics (values : List ℚ) : Stats :=
  match values with
  | [] => ⟨0, 0, 0, 0⟩
  | v :: vs =>
    let n : ℚ := (v :: vs).length
    let mean := ((v :: vs).sum) / n
    let variance := (((v :: vs).map fun x => (x - mean) ^ 2).sum) / n
    ⟨mean, variance, vs.foldl min v, vs.foldl max v⟩

/-- The comparison `x > mean + k * Math.sqrt var` performed by the anomaly
detector (`threshold` with `k = 2`, `warningThreshold` with `k = 1.5`). -/
def exceedsThreshold (x mean k var : ℚ) : Prop :=
  (x : ℝ) > (mean : ℝ) + (k : ℝ) * Real.sqrt (var : ℝ)

/-- Executable form of `exceedsThreshold`, by rational arithmetic only;
`exceedsCheck_iff` proves it computes exactly the comparison against
`mean + k * Math.sqrt var`. -/
def exceedsCheck (x mean k var : ℚ) : Bool :=
  if var ≤ 0 ∨ k = 0 then decide (mean < x)
  else if 0 < k then decide (mean < x ∧ k ^ 2 * var < (x - mean) ^ 2)
  else decide (mean ≤ x ∨ (mean - x) ^ 2 < k ^ 2 * var)

/-- Severity label of an anomaly-detector record. -/
inductive AnomSeverity where
  | error
  | warning
deriving DecidableEq, Repr

/-- An emitted anomaly or warning record.  The source additionally stores the
rounded `threshold` and `zScore` fields, whose values involve
`Math.sqrt(variance)` and are therefore irrational in general; they are
treated through `Real.sqrt variance` and `zScoreClass` in the theorems, and
the message/recommendation strings are not modelled. -/
structure AnomalyRecord where
  date : ℕ
  actualCost : ℚ
  expectedCost : ℚ
  deviationPercent : JSVal
  severity : AnomSeverity
deriving DecidableEq, Repr

/-- Classification of the JavaScript value
`(cost - mean) / Math.sqrt var`: when `var = 0` the divisor is `0`, so the
quotient is `NaN` for `cost = mean` and a signed infinity otherwise; when
`var < 0` (unreachable for a variance) `Math.sqrt` returns `NaN`; otherwise
the quotient is a finite real number. -/
inductive JSClass where
  | finite
  | nanClass
  | infClass
  | ninfClass
deriving DecidableEq, Repr

/-- The class of the z-score `(cost - mean) / Math.sqrt var` computed without
a zero guard at line 64 of the source. -/
def zScoreClass (cost mean var : ℚ) : JSClass :=
  if var = 0 then
    (if cost = mean then .nanClass else if mean < cost then .infClass else .ninfClass)
  else if var < 0 then .nanClass
  else .finite

/-- The record pushed for a day (lines 68-79 and 81-92): `expectedCost` is
the mean rounded to two decimals and `deviationPercent` is
`((total - mean) / mean) * 100` with JavaScript division, rounded. -/
def mkAnomalyRecord (sev : AnomSeverity) (mean : ℚ) (d : DailyCost) : AnomalyRecord :=
  { date := d.date
    actualCost := d.total
    expectedCost := roundTo2 mean
    deviationPercent :=
      jsToFixed2 (JSVal.mul (JSVal.div (JSVal.fin (d.total - mean)) (JSVal.fin mean))
        (JSVal.fin 100))
    severity := sev }

/-- The slice `dailyCosts.slice(-period)` of the source: the trailing
`period` elements, or (as JavaScript defines `slice(-0)`) the whole array
when `period = 0`. -/
def recentSlice (dailyCosts : List DailyCost) (period : ℕ) : List DailyCost :=
  if period = 0 then dailyCosts else dailyCosts.drop (dailyCosts.length - period)

/-- Days pushed onto `anomalies` (line 67): total above
`mean + 2 * Math.sqrt variance`. -/
def anomaliesOf (recentCosts : List DailyCost) (s : Stats) : List AnomalyRecord :=
  (recentCosts.filter fun d => exceedsCheck d.total s.mean 2 s.variance).map
    (mkAnomalyRecord .error s.mean)

/-- Days pushed onto `warnings` (line 80): total above
`mean + 1.5 * Math.sqrt variance` but not above the anomaly threshold. -/
def warningsOf (recentCosts : List DailyCost) (s : Stats) : List AnomalyRecord :=
  (recentCosts.filter fun d =>
      !exceedsCheck d.total s.mean 2 s.variance &&
        exceedsCheck d.total s.mean (3 / 2) s.variance).map
    (mkAnomalyRecord .warning s.mean)

/-- `AnomalyDetectionService.calculateHealthScore` (lines 117-123):
`max(0, 100 - 15 * anomalies - 5 * warnings)`; the `period` argument is
accepted and ignored by the source. -/
def calculateHealthScore (anomalyCount warningCount : ℕ) : ℤ :=
  max 0 (100 - 15 * (anomalyCount : ℤ) - 5 * (warningCount : ℤ))

/-- Result of `detectAnomalies`.  The reported statistics are rounded to two
decimals; `stdDev` and the two thresholds, being `Math.sqrt`-derived, are
stated through `statVariance` (the exact variance) and `Real.sqrt` in the
theorems. -/
structure AnomalyReport where
  period : ℕ
  statMean : ℚ
  statVariance : ℚ
  statMin : ℚ
  statMax : ℚ
  anomalies : List AnomalyRecord
  warnings : List AnomalyRecord
  totalAnomalies : ℕ
  totalWarnings : ℕ
  healthScore : ℤ
deriving DecidableEq, Repr

/-- `AnomalyDetectionService.detectAnomalies` (lines 52-112): statistics over
the trailing `period` days, anomaly threshold `mean + 2σ`, warning threshold
`mean + 1.5σ`, and the derived health score. -/
def detectAnomalies (dailyCosts : List DailyCost) (period : ℕ) : AnomalyReport :=
  let recentCosts := recentSlice dailyCosts period
  let stats := calculateStatistics (recentCosts.map (·.total))
  let anomalies := anomaliesOf recentCosts stats
  let warnings := warningsOf recentCosts stats
  { period := period
    statMean := roundTo2 stats.mean
    statVariance := stats.variance
    statMin := roundTo2 stats.statMin
    statMax := roundTo2 stats.statMax
    anomalies := anomalies
    warnings := warnings
    totalAnomalies := anomalies.length
    totalWarnings := warnings.length
    healthScore := calculateHealthScore anomalies.length warnings.length }

/-- One output record of `calculateMovingAverage`. -/
structure MovingAverageEntry where
  date : ℕ
  actual : ℚ
  movingAverage : JSVal
  deviation : JSVal
  deviationPercent : JSVal
deriving DecidableEq, Repr

/-- `AnomalyDetectionService.calculateMovingAverage` (lines 28-46): one
record per input element; element `i` is averaged over the trailing window
`slice(max(0, i - windowSize + 1), i + 1)`, and
`deviationPercent = (actual - avg) / avg * 100` with JavaScript division
(no guard for `avg = 0`). -/
def calculateMovingAverage (dailyCosts : List DailyCost) (windowSize : ℕ) :
    List MovingAverageEntry :=
  (List.range dailyCosts.length).filterMap fun i =>
    match dailyCosts[i]? with
    | none => none
    | some d =>
      let start := i + 1 - windowSize
      let window := (dailyCosts.drop start).take (i + 1 - start)
      let avg := JSVal.div (JSVal.fin ((window.map (·.total)).sum))
        (JSVal.fin (window.length : ℚ))
      some
        { date := d.date
          actual := d.total
          movingAverage := jsToFixed2 avg
          deviation := jsToFixed2 (JSVal.sub (JSVal.fin d.total) avg)
          deviationPercent :=
            jsToFixed2 (JSVal.mul
              (JSVal.div (JSVal.sub (JSVal.fin d.total) avg) avg) (JSVal.fin 100)) }

/-- Severity band of a cost spike (line 146). -/
inductive SpikeSeverity where
  | critical
  | high
  | medium
deriving DecidableEq, Repr

/-- An emitted spike record (lines 140-154; message, provider breakdown and
recommendation strings are not modelled). -/
structure SpikeRecord where
  date : ℕ
  currentCost : ℚ
  averageCost : JSVal
  increasePercent : JSVal
  severity : SpikeSeverity
deriving DecidableEq, Repr

/-- Result of `detectCostSpikes` (lines 158-165). -/
structure SpikeReport where
  lookbackDays : ℕ
  spikes : List SpikeRecord
  totalSpikes : ℕ
  criticalSpikes : ℕ
  highSpikes : ℕ
  mediumSpikes : ℕ
deriving DecidableEq, Repr

/-- `AnomalyDetectionService.detectCostSpikes` (lines 128-166): for each
index `i ≥ lookbackDays`, the historical average over
`slice(i - lookbackDays, i)` is divided by `lookbackDays` and
`increasePercent = (current - historicalAvg) / historicalAvg * 100` is
computed with JavaScript division — there is no guard for
`historicalAvg = 0`.  A spike is emitted when `increasePercent > 50`. -/
def detectCostSpikes (dailyCosts : List DailyCost) (lookbackDays : ℕ) : SpikeReport :=
  let spikes := (List.range dailyCosts.length).filterMap fun i =>
    if i < lookbackDays then none
    else match dailyCosts[i]? with
      | none => none
      | some d =>
        let window := (dailyCosts.drop (i - lookbackDays)).take lookbackDays
        let historicalAvg := JSVal.div (JSVal.fin ((window.map (·.total)).sum))
          (JSVal.fin (lookbackDays : ℚ))
        let increasePercent := JSVal.mul
          (JSVal.div (JSVal.sub (JSVal.fin d.total) historicalAvg) historicalAvg)
          (JSVal.fin 100)
        if increasePercent.gt (JSVal.fin 50) then
          some
            { date := d.date
              currentCost := roundTo2 d.total
              averageCost := jsToFixed2 historicalAvg
              increasePercent := jsToFixed2 increasePercent
              severity :=
                if increasePercent.gt (JSVal.fin 100) then .critical
                else if increasePercent.gt (JSVal.fin 75) then .high
                else .medium }
        else none
  { lookbackDays := lookbackDays
    spikes := spikes
    totalSpikes := spikes.length
    criticalSpikes := (spikes.filter fun s => s.severity = .critical).length
    highSpikes := (spikes.filter fun s => s.severity = .high).length
    mediumSpikes := (spikes.filter fun s => s.severity = .medium).length }

end AnomalyDetectionService

/-- Utilization block of a resource record (`utilization: {cpu, memory}`);
the `|| 0` defaulting of the source is absorbed by storing the numeric
values directly. -/
structure Utilization where
  cpu : ℚ
  memory : ℚ
deriving DecidableEq, Repr

/-- A resource as consumed by the recommendation generators: an optional
utilization block (the source skips resources without one) and a cost. -/
structure Resource where
  utilization : Option Utilization
  cost : ℚ
deriving DecidableEq, Repr

/-- Priority label of a recommendation or opportunity. -/
inductive Priority where
  | high
  | medium
  | low
deriving DecidableEq, Repr

/-- Trend direction label used by the forecasters. -/
inductive TrendLabel where
  | increasing
  | decreasing
  | stable
deriving DecidableEq, Repr

/-- A service cost series as consumed by
`AnalyticsEngine.identifyOptimizationOpportunities`: an opaque service
identifier, the total, and the (semantically relevant) list of daily
costs. -/
structure ServiceCost where
  service : ℕ
  total : ℚ
  data : List ℚ
deriving DecidableEq, Repr

namespace AnalyticsEngine

/-- A point of the historical daily-cost series (`{date, cost}`). -/
structure CostPoint where
  date : ℕ
  cost : ℚ
deriving DecidableEq, Repr

/-- Trend classification of `analyzeCostTrends`. -/
inductive Trend where
  | increasing
  | decreasing
  | stable
  | insufficientData
deriving DecidableEq, Repr

/-- The indexed sum `costs.reduce((sum, cost, i) => sum + (i + 1) * cost, 0)`
of line 350, unfolded with an explicit running index. -/
def sumIdxCost : List ℚ → ℕ → ℚ
  | [], _ => 0
  | c :: cs, k => ((k : ℚ) + 1) * c + sumIdxCost cs (k + 1)

/-- Result of `AnalyticsEngine.analyzeCostTrends`.  The sentinel branch of
the source returns an object without `slope`, `anomalyThreshold` or
`standardDeviation`, hence the `Option`; the source stores
`standardDeviation = Math.sqrt(variance)` and
`anomalyThreshold = mean + 2 * stdDev`, recovered from `variance` through
`Real.sqrt` in the statements. -/
structure TrendResult where
  trend : Trend
  averageDaily : ℚ
  projectedMonthly : ℚ
  slope : Option ℚ
  anomaly : Bool
  variance : Option ℚ
deriving DecidableEq, Repr

/-- `AnalyticsEngine.analyzeCostTrends` (lines 332-377): ordinary
least-squares slope over index-vs-cost (index `1..n`), trend classification
against `averageDaily * 0.01`, and the 2-sigma anomaly flag.  The source
sets `trend = 'stable'`, then overwrites it by two successive `if`
statements, so the `decreasing` test wins when both hold; the nested `if`
below checks the `decreasing` condition first for exactly that reason. -/
def analyzeCostTrends (dailyCosts : List CostPoint) : TrendResult :=
  if dailyCosts.length < 7 then
    { trend := .insufficientData
      averageDaily := 0
      projectedMonthly := 0
      slope := none
      anomaly := false
      variance := none }
  else
    let costs := dailyCosts.map (·.cost)
    let n : ℚ := costs.length
    let averageDaily := costs.sum / n
    let sumX := n * (n + 1) / 2
    let sumY := costs.sum
    let sumXY := sumIdxCost costs 0
    let sumX2 := n * (n + 1) * (2 * n + 1) / 6
    let slope := (n * sumXY - sumX * sumY) / (n * sumX2 - sumX * sumX)
    let mean := averageDaily
    let variance := ((costs.map fun c => (c - mean) ^ 2).sum) / n
    { trend :=
        if slope < -(averageDaily * (1 / 100)) then .decreasing
        else if averageDaily * (1 / 100) < slope then .increasing
        else .stable
      averageDaily := averageDaily
      projectedMonthly := averageDaily * 30
      slope := some slope
      anomaly := costs.any fun c => AnomalyDetectionService.exceedsCheck c mean 2 variance
      variance := some variance }

/-- An optimization opportunity (lines 386-460), as a tagged union over the
four object shapes the source pushes. -/
inductive Opportunity where
  | highSpendService (service : ℕ) (cost : ℚ) (percentage : JSVal)
      (priority : Priority) (potentialSavings : ℚ)
  | rapidGrowth (service : ℕ) (cost growth : ℚ) (priority : Priority)
      (potentialSavings : ℚ)
  | underutilizedResource (cpu memory cost : ℚ) (priority : Priority)
      (potentialSavings : ℚ)
  | idleResource (cpu memory cost : ℚ) (priority : Priority)
      (potentialSavings : ℚ)
deriving DecidableEq, Repr

/-- The `potentialSavings` field of an opportunity (used by the final
sort). -/
def Opportunity.savings : Opportunity → ℚ
  | .highSpendService _ _ _ _ s => s
  | .rapidGrowth _ _ _ _ s => s
  | .underutilizedResource _ _ _ _ s => s
  | .idleResource _ _ _ _ s => s

/-- Recognizer for the `underutilized_resource` tag. -/
def Opportunity.isUnderutilized : Opportunity → Bool
  | .underutilizedResource _ _ _ _ _ => true
  | _ => false

/-- Recognizer for the `idle_resource` tag. -/
def Opportunity.isIdle : Opportunity → Bool
  | .idleResource _ _ _ _ _ => true
  | _ => false

/-- The opportunities pushed for one service (lines 386-420):
`high_spend_service` when the service exceeds 30% of the total (JavaScript
division - the total may be `0`), and `rapid_growth` when the trailing
7-day total exceeds the earlier total by more than 20% (this division is
guarded by `previousWeek > 0` in the source). -/
def serviceOpportunities (totalAll : ℚ) (s : ServiceCost) : List Opportunity :=
  let percentage := JSVal.mul (JSVal.div (JSVal.fin s.total) (JSVal.fin totalAll))
    (JSVal.fin 100)
  (if percentage.gt (JSVal.fin 30) then
      [Opportunity.highSpendService s.service s.total percentage .high (s.total * (15 / 100))]
    else []) ++
  (if 7 ≤ s.data.length then
      let recentWeek := (s.data.drop (s.data.length - 7)).sum
      let previousWeek := (s.data.take (s.data.length - 7)).sum
      let growth := if 0 < previousWeek
        then (recentWeek - previousWeek) / previousWeek * 100 else 0
      if 20 < growth then
        [Opportunity.rapidGrowth s.service s.total growth .medium (s.total * (10 / 100))]
      else []
    else [])

/-- The opportunities pushed for one resource (lines 423-458):
`underutilized_resource` when `cpu < 20 && memory < 20` (priority `high`
iff `cpu < 10`, savings `cost * 0.40`) and `idle_resource` when
`cpu < 5 && memory < 5` (priority `high`, savings = full cost). -/
def resourceOpportunities (r : Resource) : List Opportunity :=
  match r.utilization with
  | none => []
  | some u =>
    (if u.cpu < 20 ∧ u.memory < 20 then
        [Opportunity.underutilizedResource u.cpu u.memory r.cost
          (if u.cpu < 10 then .high else .medium) (r.cost * (40 / 100))]
      else []) ++
    (if u.cpu < 5 ∧ u.memory < 5 then
        [Opportunity.idleResource u.cpu u.memory r.cost .high r.cost]
      else [])

/-- `AnalyticsEngine.identifyOptimizationOpportunities` (lines 382-461):
service opportunities then resource opportunities, sorted by descending
`potentialSavings` (the source uses the stable `Array.prototype.sort`;
`List.insertionSort` with the strict comparison is the corresponding stable
descending sort). -/
def identifyOptimizationOpportunities (serviceCosts : List ServiceCost)
    (resources : List Resource) : List Opportunity :=
  let totalAll := (serviceCosts.map (·.total)).sum
  let opportunities :=
    (serviceCosts.map (serviceOpportunities totalAll)).flatten ++
      (resources.map resourceOpportunities).flatten
  List.insertionSort (fun a b => b.savings < a.savings) opportunities

/-- A forecast point of `AnalyticsEngine.forecastCosts` (lines 512-517):
the object literal has only `date`, `predicted`, `low` and `high` - it
carries no confidence field. -/
structure ForecastPointA where
  predicted : JSVal
  low : JSVal
  high : JSVal
deriving DecidableEq, Repr

/-- Reading the `confidence` property of a forecast point of
`AnalyticsEngine.forecastCosts`: the pushed object literal (lines 512-517)
has no such field, so the JavaScript property access yields `undefined`,
modelled as `none`. -/
def ForecastPointA.confidenceJS (_ : ForecastPointA) : Option JSVal := none

/-- Whole-forecast confidence label of `AnalyticsEngine.forecastCosts`. -/
inductive ConfLabel where
  | low
  | medium
  | high
deriving DecidableEq, Repr

/-- Result of `AnalyticsEngine.forecastCosts`; the sentinel
`{forecast: [], confidence: 'low'}` carries none of the other fields,
hence the `Option`s. -/
structure ForecastResultA where
  forecast : List ForecastPointA
  confidence : ConfLabel
  averageDaily : Option ℚ
  trendLabel : Option TrendLabel
  projectedMonthly : Option ℚ
deriving DecidableEq, Repr

/-- `AnalyticsEngine.forecastCosts` (lines 486-527): fewer than 14 points
(or a missing series, `!historicalData`) returns the sentinel; otherwise a
7-day recent average with a dampened trend from the two trailing 7-day
windows (the trend division `(recent - older) / older` is unguarded, hence
JavaScript division), one forecast point per future day `1..days`. -/
def forecastCosts (historicalData : Option (List CostPoint)) (days : ℕ) :
    ForecastResultA :=
  match historicalData with
  | none =>
    { forecast := [], confidence := .low, averageDaily := none
      trendLabel := none, projectedMonthly := none }
  | some hist =>
    if hist.length < 14 then
      { forecast := [], confidence := .low, averageDaily := none
        trendLabel := none, projectedMonthly := none }
    else
      let recentData := hist.drop (hist.length - 7)
      let averageRecent := ((recentData.map (·.cost)).sum) / (recentData.length : ℚ)
      let olderData := (hist.drop (hist.length - 14)).take 7
      let averageOlder := ((olderData.map (·.cost)).sum) / (olderData.length : ℚ)
      let trend := JSVal.div (JSVal.fin (averageRecent - averageOlder))
        (JSVal.fin averageOlder)
      let forecast := (List.range days).map fun i0 =>
        let i : ℕ := i0 + 1
        let dampenedTrend := JSVal.mul trend (JSVal.fin (1 / 2))
        let predicted := JSVal.mul (JSVal.fin averageRecent)
          (JSVal.add (JSVal.fin 1)
            (JSVal.mul dampenedTrend
              (JSVal.div (JSVal.fin (i : ℚ)) (JSVal.fin (days : ℚ)))))
        ForecastPointA.mk (jsToFixed2 predicted)
          (jsToFixed2 (JSVal.mul predicted (JSVal.fin (9 / 10))))
          (jsToFixed2 (JSVal.mul predicted (JSVal.fin (11 / 10))))
      { forecast := forecast
        confidence := if 30 ≤ hist.length then .high else .medium
        averageDaily := some averageRecent
        trendLabel := some
          (if trend.gt (JSVal.fin (1 / 20)) then .increasing
           else if (JSVal.fin (-(1 / 20) : ℚ)).gt trend then .decreasing
           else .stable)
        projectedMonthly := some (roundTo2 (averageRecent * 30)) }

end AnalyticsEngine

namespace AIInsightsEngine

/-- A rightsizing recommendation of
`AIInsightsEngine.generateRightsizingRecommendations` (lines 147-163);
title/description strings are not modelled, the `details` numbers are kept
inline. -/
structure RightsizingRec where
  priority : Priority
  cpu : ℚ
  memory : ℚ
  cost : ℚ
  estimatedSavings : ℚ
  savingsPercentage : ℚ
  aiConfidence : ℚ
deriving DecidableEq, Repr

/-- `AIInsightsEngine.generateRightsizingRecommendations` (lines 134-168):
a resource with utilization is recommended for rightsizing when
`avgUtilization < 40 && cpu < 50 && memory < 50`, where
`avgUtilization = (cpu + memory) / 2`; priority is `high` iff
`avgUtilization < 20`; `estimatedSavings = parseFloat((cost * 0.4).toFixed(2))`. -/
def generateRightsizingRecommendations (resources : List Resource) :
    List RightsizingRec :=
  resources.filterMap fun r =>
    match r.utilization with
    | none => none
    | some u =>
      let avgUtilization := (u.cpu + u.memory) / 2
      if avgUtilization < 40 ∧ u.cpu < 50 ∧ u.memory < 50 then
        some
          { priority := if avgUtilization < 20 then .high else .medium
            cpu := u.cpu
            memory := u.memory
            cost := r.cost
            estimatedSavings := roundTo2 (r.cost * (4 / 10))
            savingsPercentage := 40
            aiConfidence := min 95 (70 + (40 - avgUtilization)) }
      else none

/-- An idle-resource recommendation of
`AIInsightsEngine.generateIdleResourceRecommendations` (lines 228-245);
`suggestTerminate` models the `suggestedAction: cpu < 2 ? 'Terminate' :
'Stop'` detail. -/
structure IdleRec where
  priority : Priority
  cpu : ℚ
  memory : ℚ
  cost : ℚ
  suggestTerminate : Bool
  estimatedSavings : ℚ
  savingsPercentage : ℚ
  aiConfidence : ℚ
deriving DecidableEq, Repr

/-- `AIInsightsEngine.generateIdleResourceRecommendations` (lines 219-250):
a resource with utilization and `cpu < 5 && memory < 5` yields a
priority-`high` recommendation with
`estimatedSavings = parseFloat(cost.toFixed(2))` and
`savingsPercentage = 100`. -/
def generateIdleResourceRecommendations (resources : List Resource) :
    List IdleRec :=
  resources.filterMap fun r =>
    match r.utilization with
    | none => none
    | some u =>
      if u.cpu < 5 ∧ u.memory < 5 then
        some
          { priority := .high
            cpu := u.cpu
            memory := u.memory
            cost := r.cost
            suggestTerminate := decide (u.cpu < 2)
            estimatedSavings := roundTo2 r.cost
            savingsPercentage := 100
            aiConfidence := 85 }
      else none

end AIInsightsEngine

namespace CostAnalyticsService

/-- The indexed sum `dailyTrend.reduce((sum, d, i) => sum + i * d.total, 0)`
of line 216, unfolded with an explicit running index. -/
def sumIdxTotal : List ℚ → ℕ → ℚ
  | [], _ => 0
  | c :: cs, k => (k : ℚ) * c + sumIdxTotal cs (k + 1)

/-- A forecast point of `CostAnalyticsService.forecastCosts` (lines
232-239): `{date, predicted, lowerBound, upperBound, confidence}` with
`confidence = parseFloat(Math.max(0.7, 1 - i * 0.05).toFixed(2))`. -/
structure ForecastPointB where
  predicted : JSVal
  lowerBound : JSVal
  upperBound : JSVal
  confidence : ℚ
deriving DecidableEq, Repr

/-- Result of `CostAnalyticsService.forecastCosts` (lines 242-249). -/
structure ForecastResultB where
  period : ℕ
  forecast : List ForecastPointB
  totalForecast : JSVal
  trendLabel : TrendLabel
deriving DecidableEq, Repr

/-- Sum of JavaScript values, as computed by
`reduce((sum, f) => sum + f.predicted, 0)`. -/
def jsSum (l : List JSVal) : JSVal := l.foldl JSVal.add (JSVal.fin 0)

/-- `CostAnalyticsService.forecastCosts` (lines 208-250), as a function of
the daily totals it regresses over (the source obtains them from
`getCostOverview(period).dailyTrend`, a mock generator that is outside the
analytics core).  Ordinary least squares over zero-based indices, one
forecast point per future day `1..days`; the slope denominator is `0` for
fewer than two points, hence JavaScript division. -/
def forecastCosts (dailyTrend : List ℚ) (days : ℕ) : ForecastResultB :=
  let n : ℚ := dailyTrend.length
  let sumX := n * (n - 1) / 2
  let sumY := dailyTrend.sum
  let sumXY := sumIdxTotal dailyTrend 0
  let sumX2 := n * (n - 1) * (2 * n - 1) / 6
  let slope := JSVal.div (JSVal.fin (n * sumXY - sumX * sumY))
    (JSVal.fin (n * sumX2 - sumX * sumX))
  let intercept := JSVal.div
    (JSVal.sub (JSVal.fin sumY) (JSVal.mul slope (JSVal.fin sumX))) (JSVal.fin n)
  let forecast := (List.range days).map fun i0 =>
    let i : ℕ := i0 + 1
    let predicted := JSVal.add intercept (JSVal.mul slope (JSVal.fin (n + (i : ℚ))))
    let confidence := max (7 / 10 : ℚ) (1 - (i : ℚ) * (1 / 20))
    ForecastPointB.mk (jsToFixed2 predicted)
      (jsToFixed2 (JSVal.mul predicted (JSVal.fin (9 / 10))))
      (jsToFixed2 (JSVal.mul predicted (JSVal.fin (11 / 10))))
      (roundTo2 confidence)
  { period := days
    forecast := forecast
    totalForecast := jsToFixed2 (jsSum (forecast.map (·.predicted)))
    trendLabel :=
      if slope.gt (JSVal.fin 0) then .increasing
      else if (JSVal.fin 0).gt slope then .decreasing
      else .stable }

end CostAnalyticsService

/-- The eight-day series `[100,100,100,100,100,100,100,500]` of the
end-to-end scenario. -/
def c4Series : List DailyCost :=
  [⟨1, 100⟩, ⟨2, 100⟩, ⟨3, 100⟩, ⟨4, 100⟩, ⟨5, 100⟩, ⟨6, 100⟩, ⟨7, 100⟩, ⟨8, 500⟩]

/-- An eight-day series whose first seven days cost nothing. -/
def zeroLeadSeries : List DailyCost :=
  [⟨1, 0⟩, ⟨2, 0⟩, ⟨3, 0⟩, ⟨4, 0⟩, ⟨5, 0⟩, ⟨6, 0⟩, ⟨7, 0⟩, ⟨8, 10⟩]

/-- The arithmetic daily-cost series `a, a + d, a + 2d, ...` of length
`n`. -/
def arithSeries (a d : ℚ) (n : ℕ) : List AnalyticsEngine.CostPoint :=
  (List.range n).map fun i => ⟨i, a + d * (i : ℚ)⟩

/-- Default forecast point used as the out-of-range value when indexing a
forecast list. -/
def defaultPointB : CostAnalyticsService.ForecastPointB :=
  ⟨JSVal.nan, JSVal.nan, JSVal.nan, 0⟩

/-- A 14-day constant history used to exercise the forecasters. -/
def hist14 : List AnalyticsEngine.CostPoint :=
  (List.range 14).map fun i => ⟨i, 100⟩

theorem lt_of_sq_lt_sq {a b : ℝ} (hb : 0 ≤ b) (h : a ^ 2 < b ^ 2) : a < b := by
  by_contra hc
  push_neg at hc
  nlinarith

theorem exceedsCheck_iff (x mean k var : ℚ) :
    AnomalyDetectionService.exceedsCheck x mean k var = true ↔
      AnomalyDetectionService.exceedsThreshold x mean k var := by
  unfold AnomalyDetectionService.exceedsCheck AnomalyDetectionService.exceedsThreshold
  rcases le_or_lt var 0 with hv | hv
  · have hs : Real.sqrt (var : ℚ) = 0 := by
      rw [Real.sqrt_eq_zero']
      exact_mod_cast hv
    rw [if_pos (Or.inl hv), hs, mul_zero, add_zero, decide_eq_true_eq]
    exact ⟨fun h => by exact_mod_cast h, fun h => by exact_mod_cast h⟩
  · by_cases hk0 : k = 0
    · subst hk0
      rw [if_pos (Or.inr rfl), decide_eq_true_eq]
      rw [show ((0 : ℚ) : ℝ) = 0 by norm_num, zero_mul, add_zero]
      exact ⟨fun h => by exact_mod_cast h, fun h => by exact_mod_cast h⟩
    · rw [if_neg (by push_neg; exact ⟨hv, hk0⟩)]
      have hvR : (0 : ℝ) < (var : ℚ) := by exact_mod_cast hv
      have hsq : Real.sqrt (var : ℚ) ^ 2 = ((var : ℚ) : ℝ) := Real.sq_sqrt hvR.le
      have hspos : (0 : ℝ) < Real.sqrt (var : ℚ) := Real.sqrt_pos.mpr hvR
      by_cases hkpos : 0 < k
      · have hkR : (0 : ℝ) < ((k : ℚ) : ℝ) := by exact_mod_cast hkpos
        rw [if_pos hkpos, decide_eq_true_eq]
        constructor
        · rintro ⟨hmx, hlt⟩
          have hmxR : ((mean : ℚ) : ℝ) < ((x : ℚ) : ℝ) := by exact_mod_cast hmx
          have hltR : ((k : ℚ) : ℝ) ^ 2 * ((var : ℚ) : ℝ) <
              (((x : ℚ) : ℝ) - ((mean : ℚ) : ℝ)) ^ 2 := by exact_mod_cast hlt
          have hlt2 : (((k : ℚ) : ℝ) * Real.sqrt (var : ℚ)) ^ 2 <
              (((x : ℚ) : ℝ) - ((mean : ℚ) : ℝ)) ^ 2 := by
            rw [mul_pow, hsq]; exact hltR
          have := lt_of_sq_lt_sq (b := ((x : ℚ) : ℝ) - ((mean : ℚ) : ℝ)) (by linarith) hlt2
          linarith
        · intro h
          have hks : (0 : ℝ) < ((k : ℚ) : ℝ) * Real.sqrt (var : ℚ) := mul_pos hkR hspos
          have hmxR : ((mean : ℚ) : ℝ) < ((x : ℚ) : ℝ) := by linarith
          refine ⟨by exact_mod_cast hmxR, ?_⟩
          have hbase : ((k : ℚ) : ℝ) * Real.sqrt (var : ℚ) <
              ((x : ℚ) : ℝ) - ((mean : ℚ) : ℝ) := by linarith
          have h2 : ((k : ℚ) : ℝ) ^ 2 * ((var : ℚ) : ℝ) <
              (((x : ℚ) : ℝ) - ((mean : ℚ) : ℝ)) ^ 2 := by
            rw [← hsq, ← mul_pow]
            nlinarith
          exact_mod_cast h2
      · have hkneg : k < 0 := lt_of_le_of_ne (not_lt.mp hkpos) hk0
        have hkR : ((k : ℚ) : ℝ) < 0 := by exact_mod_cast hkneg
        rw [if_neg hkpos, decide_eq_true_eq]
        have hksneg : ((k : ℚ) : ℝ) * Real.sqrt (var : ℚ) < 0 :=
          mul_neg_of_neg_of_pos hkR hspos
        constructor
        · rintro (hmx | hlt)
          · have hmxR : ((mean : ℚ) : ℝ) ≤ ((x : ℚ) : ℝ) := by exact_mod_cast hmx
            linarith
          · have hltR : (((mean : ℚ) : ℝ) - ((x : ℚ) : ℝ)) ^ 2 <
                ((k : ℚ) : ℝ) ^ 2 * ((var : ℚ) : ℝ) := by exact_mod_cast hlt
            have h2 : (((mean : ℚ) : ℝ) - ((x : ℚ) : ℝ)) ^ 2 <
                (-(((k : ℚ) : ℝ) * Real.sqrt (var : ℚ))) ^ 2 := by
              rw [neg_pow, mul_pow, hsq]
              nlinarith
            have h3 := lt_of_sq_lt_sq
              (b := -(((k : ℚ) : ℝ) * Real.sqrt (var : ℚ))) (by linarith) h2
            linarith
        · intro h
          by_cases hmx : mean ≤ x
          · exact Or.inl hmx
          · push_neg at hmx
            refine Or.inr ?_
            have hmxR : ((x : ℚ) : ℝ) < ((mean : ℚ) : ℝ) := by exact_mod_cast hmx
            have hneed : ((mean : ℚ) : ℝ) - ((x : ℚ) : ℝ) <
                -(((k : ℚ) : ℝ) * Real.sqrt (var : ℚ)) := by linarith
            have hpos : (0 : ℝ) < ((mean : ℚ) : ℝ) - ((x : ℚ) : ℝ) := by linarith
            have h2 : (((mean : ℚ) : ℝ) - ((x : ℚ) : ℝ)) ^ 2 <
                ((k : ℚ) : ℝ) ^ 2 * ((var : ℚ) : ℝ) := by
              rw [← hsq, ← mul_pow]
              calc (((mean : ℚ) : ℝ) - ((x : ℚ) : ℝ)) ^ 2
                  < (-(((k : ℚ) : ℝ) * Real.sqrt (var : ℚ))) ^ 2 := by nlinarith
                _ = (((k : ℚ) : ℝ) * Real.sqrt (var : ℚ)) ^ 2 := by ring
            exact_mod_cast h2


/-- C1.  The zero-average case of `detectCostSpikes` is NOT guarded: on a
series whose seven-day history is all zeros and whose current day costs 10,
the index `i = lookbackDays` has `historicalAvg = 0`, yet a spike record IS
emitted, and it carries `increasePercent = Infinity` (JavaScript
`(10 - 0) / 0 * 100`).  This evaluates the code at the failing input of the
claim. -/
theorem c1_zero_average_emits_infinite_spike :
    (AnomalyDetectionService.detectCostSpikes zeroLeadSeries 7).spikes =
      [⟨8, 10, JSVal.fin 0, JSVal.inf, AnomalyDetectionService.SpikeSeverity.critical⟩] ∧
    ((AnomalyDetectionService.detectCostSpikes zeroLeadSeries 7).spikes.all
      fun s => s.increasePercent.isFinite) = false := by
  have hsp : (AnomalyDetectionService.detectCostSpikes zeroLeadSeries 7).spikes =
      [⟨8, 10, JSVal.fin 0, JSVal.inf, AnomalyDetectionService.SpikeSeverity.critical⟩] := by
    norm_num [AnomalyDetectionService.detectCostSpikes, zeroLeadSeries, roundTo2,
      jsToFixed2, JSVal.div, JSVal.sub, JSVal.add, JSVal.neg, JSVal.mul, JSVal.gt,
      List.range_succ, List.filterMap_cons, List.filterMap_append]
  refine ⟨hsp, ?_⟩
  rw [hsp]
  rfl

/-- C2.  `calculateMovingAverage` does produce one record per input with the
trailing window, but when the moving average is `0` the emitted
`deviationPercent` is `NaN` (JavaScript `(0 - 0) / 0 * 100`), not `0` and
not a flag: the guard demanded by the specification is absent.  This
evaluates the code at the failing input of the claim. -/
theorem c2_zero_moving_average_emits_nan :
    AnomalyDetectionService.calculateMovingAverage [⟨1, 0⟩] 7 =
      [⟨1, 0, JSVal.fin 0, JSVal.fin 0, JSVal.nan⟩] ∧
    ((AnomalyDetectionService.calculateMovingAverage [⟨1, 0⟩] 7).all
      fun e => e.deviationPercent.isFinite) = false := by
  have hma : AnomalyDetectionService.calculateMovingAverage [⟨1, 0⟩] 7 =
      [⟨1, 0, JSVal.fin 0, JSVal.fin 0, JSVal.nan⟩] := by
    norm_num [AnomalyDetectionService.calculateMovingAverage, roundTo2, jsToFixed2,
      JSVal.div, JSVal.sub, JSVal.add, JSVal.neg, JSVal.mul, List.range_succ,
      List.filterMap_cons]
  refine ⟨hma, ?_⟩
  rw [hma]
  rfl

/-- C4, counterexample.  On `[100 × 7, 500]` with `period = 8` the reported
mean is exactly `150`, not approximately `137.5`, and the error threshold
`mean + 2σ` is approximately `414.58`, not approximately `402.7` (both
stated with a generous tolerance of `1`). -/
theorem c4_mean_is_150_not_137_5 :
    (AnomalyDetectionService.detectAnomalies c4Series 8).statMean = 150 ∧
    ¬ |(AnomalyDetectionService.detectAnomalies c4Series 8).statMean - 1375 / 10| < 1 ∧
    ¬ |(150 : ℝ) + 2 * Real.sqrt
        ((AnomalyDetectionService.detectAnomalies c4Series 8).statVariance : ℚ) -
        4027 / 10| < 1 := by
  have hmean : (AnomalyDetectionService.detectAnomalies c4Series 8).statMean = 150 := by
    norm_num [AnomalyDetectionService.detectAnomalies, AnomalyDetectionService.recentSlice,
      AnomalyDetectionService.calculateStatistics, c4Series, roundTo2]
  have hvar : (AnomalyDetectionService.detectAnomalies c4Series 8).statVariance = 17500 := by
    norm_num [AnomalyDetectionService.detectAnomalies, AnomalyDetectionService.recentSlice,
      AnomalyDetectionService.calculateStatistics, c4Series]
  refine ⟨hmean, ?_, ?_⟩
  · rw [hmean, show (150 : ℚ) - 1375 / 10 = 25 / 2 by norm_num,
      abs_of_pos (by norm_num : (0 : ℚ) < 25 / 2)]
    norm_num
  · rw [hvar]
    have hlow : (126.85 : ℝ) < Real.sqrt ((17500 : ℚ) : ℝ) := by
      rw [Real.lt_sqrt (by norm_num)]
      norm_num
    intro habs
    rw [abs_lt] at habs
    nlinarith [habs.2]

/-- C4, amended.  On `[100 × 7, 500]` with `period = 8`: the mean is `150`,
the variance is `17500` (so `σ = √17500 ∈ (132.28, 132.29)` and the error
threshold `mean + 2σ ∈ (414.57, 414.58)`), and day 8 (cost 500) is flagged
as the only anomaly, with severity `error` and no warnings. -/
theorem c4_scenario_day8_error :
    (AnomalyDetectionService.detectAnomalies c4Series 8).statMean = 150 ∧
    (AnomalyDetectionService.detectAnomalies c4Series 8).statVariance = 17500 ∧
    (132.28 < Real.sqrt ((17500 : ℚ) : ℝ) ∧ Real.sqrt ((17500 : ℚ) : ℝ) < 132.29) ∧
    (414.57 < (150 : ℝ) + 2 * Real.sqrt ((17500 : ℚ) : ℝ) ∧
      (150 : ℝ) + 2 * Real.sqrt ((17500 : ℚ) : ℝ) < 414.58) ∧
    (AnomalyDetectionService.detectAnomalies c4Series 8).anomalies =
      [⟨8, 500, 150, JSVal.fin (23333 / 100), AnomalyDetectionService.AnomSeverity.error⟩] ∧
    (AnomalyDetectionService.detectAnomalies c4Series 8).warnings = [] := by
  have hlow : (132.285 : ℝ) < Real.sqrt ((17500 : ℚ) : ℝ) := by
    rw [Real.lt_sqrt (by norm_num)]
    norm_num
  have hhigh : Real.sqrt ((17500 : ℚ) : ℝ) < 132.29 := by
    rw [Real.sqrt_lt' (by norm_num)]
    norm_num
  refine ⟨?_, ?_, ⟨by nlinarith, hhigh⟩, ⟨by nlinarith, by nlinarith⟩, ?_, ?_⟩
  · norm_num [AnomalyDetectionService.detectAnomalies, AnomalyDetectionService.recentSlice,
      AnomalyDetectionService.calculateStatistics, c4Series, roundTo2]
  · norm_num [AnomalyDetectionService.detectAnomalies, AnomalyDetectionService.recentSlice,
      AnomalyDetectionService.calculateStatistics, c4Series]
  · norm_num [AnomalyDetectionService.detectAnomalies, AnomalyDetectionService.recentSlice,
      AnomalyDetectionService.calculateStatistics, AnomalyDetectionService.anomaliesOf,
      AnomalyDetectionService.warningsOf, AnomalyDetectionService.mkAnomalyRecord,
      AnomalyDetectionService.exceedsCheck, c4Series, roundTo2, jsToFixed2, JSVal.div,
      JSVal.sub, JSVal.add, JSVal.neg, JSVal.mul, List.filter_cons]
  · norm_num [AnomalyDetectionService.detectAnomalies, AnomalyDetectionService.recentSlice,
      AnomalyDetectionService.calculateStatistics, AnomalyDetectionService.anomaliesOf,
      AnomalyDetectionService.warningsOf, AnomalyDetectionService.mkAnomalyRecord,
      AnomalyDetectionService.exceedsCheck, c4Series, roundTo2, jsToFixed2, JSVal.div,
      JSVal.sub, JSVal.add, JSVal.neg, JSVal.mul, List.filter_cons]

/-- C10.  `AnalyticsEngine.forecastCosts` requires at least 14 historical
points: for a missing series or one with fewer than 14 points it returns
the sentinel with an empty forecast and confidence label `low`. -/
theorem c10_under_14_points_sentinel (historicalData : Option (List AnalyticsEngine.CostPoint))
    (days : ℕ) (h : (historicalData.getD []).length < 14) :
    (AnalyticsEngine.forecastCosts historicalData days).forecast = [] ∧
    (AnalyticsEngine.forecastCosts historicalData days).confidence =
      AnalyticsEngine.ConfLabel.low := by
  cases historicalData with
  | none => exact ⟨rfl, rfl⟩
  | some hist =>
    simp only [Option.getD_some] at h
    simp [AnalyticsEngine.forecastCosts, if_pos h]

/-- Witness for C10 at a one-point series and a 30-day horizon. -/
theorem c10_under_14_points_sentinel_witness :
    ((Option.some [(⟨1, 100⟩ : AnalyticsEngine.CostPoint)]).getD []).length < 14 ∧
    ((AnalyticsEngine.forecastCosts (some [⟨1, 100⟩]) 30).forecast = [] ∧
      (AnalyticsEngine.forecastCosts (some [⟨1, 100⟩]) 30).confidence =
        AnalyticsEngine.ConfLabel.low) :=
  ⟨by decide, c10_under_14_points_sentinel (some [⟨1, 100⟩]) 30 (by decide)⟩

theorem sum_of_const {l : List ℚ} {c : ℚ} (h : ∀ v ∈ l, v = c) :
    l.sum = (l.length : ℚ) * c := by
  induction l with
  | nil => simp
  | cons a t ih =>
    simp only [List.sum_cons, List.length_cons]
    rw [h a (List.mem_cons_self a t), ih fun v hv => h v (List.mem_cons_of_mem a hv)]
    push_cast
    ring

theorem sum_sq_dev_zero {l : List ℚ} {m : ℚ}
    (h : (l.map fun x => (x - m) ^ 2).sum = 0) : ∀ x ∈ l, x = m := by
  induction l with
  | nil => intro x hx; cases hx
  | cons a t ih =>
    rw [List.map_cons, List.sum_cons] at h
    have hrest : (0 : ℚ) ≤ (t.map fun x => (x - m) ^ 2).sum :=
      List.sum_nonneg fun x hx => by
        obtain ⟨y, _, rfl⟩ := List.mem_map.mp hx
        positivity
    have hhead : (a - m) ^ 2 = 0 := by nlinarith [sq_nonneg (a - m)]
    have ha : a = m := by
      have := (pow_eq_zero_iff (two_ne_zero)).mp hhead
      linarith
    intro x hx
    rcases List.mem_cons.mp hx with rfl | hx
    · exact ha
    · exact ih (by linarith [sq_nonneg (a - m)]) x hx

theorem stats_mean_const {l : List ℚ} {c : ℚ} (hne : l ≠ [])
    (h : ∀ v ∈ l, v = c) :
    (AnomalyDetectionService.calculateStatistics l).mean = c := by
  cases l with
  | nil => exact absurd rfl hne
  | cons v vs =>
    have hn : ((v :: vs).length : ℚ) ≠ 0 := by
      have : (0 : ℚ) < ((vs.length : ℚ) + 1) := by positivity
      simpa using this.ne'
    simp only [AnomalyDetectionService.calculateStatistics]
    rw [sum_of_const h]
    exact mul_div_cancel_left₀ c hn

theorem stats_variance_const {l : List ℚ} {c : ℚ} (hne : l ≠ [])
    (h : ∀ v ∈ l, v = c) :
    (AnomalyDetectionService.calculateStatistics l).variance = 0 := by
  cases l with
  | nil => exact absurd rfl hne
  | cons v vs =>
    have hmean := stats_mean_const hne h
    simp only [AnomalyDetectionService.calculateStatistics] at hmean ⊢
    rw [List.sum_eq_zero, zero_div]
    intro x hx
    obtain ⟨y, hy, rfl⟩ := List.mem_map.mp hx
    rw [h y hy, hmean]
    ring

theorem stats_variance_nonneg (l : List ℚ) :
    0 ≤ (AnomalyDetectionService.calculateStatistics l).variance := by
  cases l with
  | nil => simp [AnomalyDetectionService.calculateStatistics]
  | cons v vs =>
    simp only [AnomalyDetectionService.calculateStatistics]
    apply div_nonneg
    · exact List.sum_nonneg fun x hx => by
        obtain ⟨y, _, rfl⟩ := List.mem_map.mp hx
        positivity
    · positivity

theorem stats_variance_zero_all_mean {l : List ℚ}
    (h : (AnomalyDetectionService.calculateStatistics l).variance = 0) :
    ∀ x ∈ l, x = (AnomalyDetectionService.calculateStatistics l).mean := by
  cases l with
  | nil => intro x hx; cases hx
  | cons v vs =>
    simp only [AnomalyDetectionService.calculateStatistics] at h ⊢
    have hn : ((v :: vs).length : ℚ) ≠ 0 := by
      have : (0 : ℚ) < ((vs.length : ℚ) + 1) := by positivity
      simpa using this.ne'
    rcases div_eq_zero_iff.mp h with hsum | hzero
    · exact sum_sq_dev_zero hsum
    · exact absurd hzero hn

theorem mem_of_mem_recentSlice {d : DailyCost} {l : List DailyCost} {p : ℕ}
    (h : d ∈ AnomalyDetectionService.recentSlice l p) : d ∈ l := by
  unfold AnomalyDetectionService.recentSlice at h
  split at h
  · exact h
  · exact List.mem_of_mem_drop h

theorem exceedsCheck_const_false (c k : ℚ) :
    AnomalyDetectionService.exceedsCheck c c k 0 = false := by
  simp [AnomalyDetectionService.exceedsCheck]

/-- C6.  For every constant-cost series (all daily totals equal) and every
period, `detectAnomalies` reports zero anomalies and zero warnings and a
health score of exactly 100. -/
theorem c6_constant_series_health_100 (dailyCosts : List DailyCost) (period : ℕ)
    (c : ℚ) (hconst : ∀ d ∈ dailyCosts, d.total = c) :
    (AnomalyDetectionService.detectAnomalies dailyCosts period).anomalies = [] ∧
    (AnomalyDetectionService.detectAnomalies dailyCosts period).warnings = [] ∧
    (AnomalyDetectionService.detectAnomalies dailyCosts period).totalAnomalies = 0 ∧
    (AnomalyDetectionService.detectAnomalies dailyCosts period).totalWarnings = 0 ∧
    (AnomalyDetectionService.detectAnomalies dailyCosts period).healthScore = 100 := by
  set recent := AnomalyDetectionService.recentSlice dailyCosts period with hrec
  set stats := AnomalyDetectionService.calculateStatistics (recent.map (·.total))
    with hstats
  have hmem : ∀ d ∈ recent, d.total = c := fun d hd =>
    hconst d (mem_of_mem_recentSlice hd)
  have hvals : ∀ v ∈ recent.map (·.total), v = c := by
    intro v hv
    obtain ⟨d, hd, rfl⟩ := List.mem_map.mp hv
    exact hmem d hd
  have hfalse : ∀ (k : ℚ), ∀ d ∈ recent,
      AnomalyDetectionService.exceedsCheck d.total stats.mean k stats.variance = false := by
    intro k d hd
    have hne : recent.map (·.total) ≠ [] := by
      intro hnil
      rw [List.map_eq_nil_iff] at hnil
      rw [hnil] at hd
      cases hd
    have hm : stats.mean = c := by rw [hstats]; exact stats_mean_const hne hvals
    have hv : stats.variance = 0 := by rw [hstats]; exact stats_variance_const hne hvals
    rw [hmem d hd, hm, hv]
    exact exceedsCheck_const_false c k
  have hanom : AnomalyDetectionService.anomaliesOf recent stats = [] := by
    unfold AnomalyDetectionService.anomaliesOf
    rw [List.filter_eq_nil_iff.mpr fun d hd => by rw [hfalse 2 d hd]; exact Bool.false_ne_true]
    rfl
  have hwarn : AnomalyDetectionService.warningsOf recent stats = [] := by
    unfold AnomalyDetectionService.warningsOf
    rw [List.filter_eq_nil_iff.mpr fun d hd => by
      rw [hfalse 2 d hd, hfalse (3 / 2) d hd]
      exact Bool.false_ne_true]
    rfl
  have h1 : (AnomalyDetectionService.detectAnomalies dailyCosts period).anomalies =
      AnomalyDetectionService.anomaliesOf recent stats := rfl
  have h2 : (AnomalyDetectionService.detectAnomalies dailyCosts period).warnings =
      AnomalyDetectionService.warningsOf recent stats := rfl
  have h3 : (AnomalyDetectionService.detectAnomalies dailyCosts period).totalAnomalies =
      (AnomalyDetectionService.anomaliesOf recent stats).length := rfl
  have h4 : (AnomalyDetectionService.detectAnomalies dailyCosts period).totalWarnings =
      (AnomalyDetectionService.warningsOf recent stats).length := rfl
  have h5 : (AnomalyDetectionService.detectAnomalies dailyCosts period).healthScore =
      AnomalyDetectionService.calculateHealthScore
        (AnomalyDetectionService.anomaliesOf recent stats).length
        (AnomalyDetectionService.warningsOf recent stats).length := rfl
  refine ⟨h1.trans hanom, h2.trans hwarn, ?_, ?_, ?_⟩
  · rw [h3, hanom]; rfl
  · rw [h4, hwarn]; rfl
  · rw [h5, hanom, hwarn]; rfl

/-- Witness for C6 on the constant two-day series `[5, 5]` with period 30. -/
theorem c6_constant_series_health_100_witness :
    (∀ d ∈ [(⟨1, 5⟩ : DailyCost), ⟨2, 5⟩], d.total = 5) ∧
    ((AnomalyDetectionService.detectAnomalies [⟨1, 5⟩, ⟨2, 5⟩] 30).anomalies = [] ∧
      (AnomalyDetectionService.detectAnomalies [⟨1, 5⟩, ⟨2, 5⟩] 30).warnings = [] ∧
      (AnomalyDetectionService.detectAnomalies [⟨1, 5⟩, ⟨2, 5⟩] 30).totalAnomalies = 0 ∧
      (AnomalyDetectionService.detectAnomalies [⟨1, 5⟩, ⟨2, 5⟩] 30).totalWarnings = 0 ∧
      (AnomalyDetectionService.detectAnomalies [⟨1, 5⟩, ⟨2, 5⟩] 30).healthScore = 100) := by
  have hc : ∀ d ∈ [(⟨1, 5⟩ : DailyCost), ⟨2, 5⟩], d.total = 5 := by
    intro d hd
    rcases List.mem_cons.mp hd with rfl | hd
    · rfl
    · rcases List.mem_cons.mp hd with rfl | hd
      · rfl
      · cases hd
  exact ⟨hc, c6_constant_series_health_100 [⟨1, 5⟩, ⟨2, 5⟩] 30 5 hc⟩

theorem exceedsCheck_pos_k_mean_lt {x mean k var : ℚ} (hk : 0 < k)
    (h : AnomalyDetectionService.exceedsCheck x mean k var = true) : mean < x := by
  unfold AnomalyDetectionService.exceedsCheck at h
  split at h
  · exact of_decide_eq_true h
  · exact (of_decide_eq_true h).1

/-- C9.  Although `detectAnomalies` computes
`zScore = (cost - mean) / stdDev` without a zero guard, every emitted
anomaly or warning record has a strictly positive variance behind it, so
the z-score the source computes for it is a finite real number - never
`NaN` or an infinity. -/
theorem c9_emitted_zscore_finite (dailyCosts : List DailyCost) (period : ℕ)
    (record : AnomalyDetectionService.AnomalyRecord)
    (hmem :
      record ∈ (AnomalyDetectionService.detectAnomalies dailyCosts period).anomalies ∨
      record ∈ (AnomalyDetectionService.detectAnomalies dailyCosts period).warnings) :
    0 < (AnomalyDetectionService.calculateStatistics
      ((AnomalyDetectionService.recentSlice dailyCosts period).map (·.total))).variance ∧
    AnomalyDetectionService.zScoreClass record.actualCost
      (AnomalyDetectionService.calculateStatistics
        ((AnomalyDetectionService.recentSlice dailyCosts period).map (·.total))).mean
      (AnomalyDetectionService.calculateStatistics
        ((AnomalyDetectionService.recentSlice dailyCosts period).map (·.total))).variance =
      AnomalyDetectionService.JSClass.finite := by
  set recent := AnomalyDetectionService.recentSlice dailyCosts period with hrecdef
  set stats := AnomalyDetectionService.calculateStatistics (recent.map (·.total))
    with hstatsdef
  have hmem' :
      record ∈ AnomalyDetectionService.anomaliesOf recent stats ∨
      record ∈ AnomalyDetectionService.warningsOf recent stats := hmem
  have hday : ∃ d ∈ recent, d.total = record.actualCost ∧
      AnomalyDetectionService.exceedsCheck d.total stats.mean 2 stats.variance = true ∨
      d ∈ recent ∧ d.total = record.actualCost ∧
      AnomalyDetectionService.exceedsCheck d.total stats.mean (3 / 2) stats.variance = true := by
    rcases hmem' with hin | hin
    · obtain ⟨d, hd, rfl⟩ := List.mem_map.mp hin
      have hfd := List.mem_filter.mp hd
      exact ⟨d, hfd.1, Or.inl ⟨rfl, hfd.2⟩⟩
    · obtain ⟨d, hd, rfl⟩ := List.mem_map.mp hin
      have hfd := List.mem_filter.mp hd
      have hsplit := Bool.and_eq_true_iff.mp hfd.2
      exact ⟨d, hfd.1, Or.inr ⟨hfd.1, rfl, hsplit.2⟩⟩
  obtain ⟨d, hd, hcase⟩ := hday
  have hlt : stats.mean < d.total ∧ d.total = record.actualCost := by
    rcases hcase with ⟨heq, hchk⟩ | ⟨_, heq, hchk⟩
    · exact ⟨exceedsCheck_pos_k_mean_lt (by norm_num) hchk, heq⟩
    · exact ⟨exceedsCheck_pos_k_mean_lt (by norm_num) hchk, heq⟩
  have hnn := stats_variance_nonneg (recent.map (·.total))
  have hpos : 0 < stats.variance := by
    rcases lt_or_eq_of_le hnn with hpos | hzero
    · exact hpos
    · exfalso
      have hall := stats_variance_zero_all_mean (l := recent.map (·.total)) hzero.symm
      have hdt : d.total ∈ recent.map (·.total) := List.mem_map.mpr ⟨d, hd, rfl⟩
      have := hall d.total hdt
      rw [← hstatsdef] at this
      exact absurd this (ne_of_gt hlt.1)
  refine ⟨hpos, ?_⟩
  rw [← hlt.2]
  unfold AnomalyDetectionService.zScoreClass
  rw [if_neg (ne_of_gt hpos), if_neg (not_lt_of_gt hpos)]

/-- Witness for C9: the anomaly emitted for day 8 of the end-to-end series
has a finite z-score class. -/
theorem c9_emitted_zscore_finite_witness :
    ((⟨8, 500, 150, JSVal.fin (23333 / 100),
        AnomalyDetectionService.AnomSeverity.error⟩ :
        AnomalyDetectionService.AnomalyRecord) ∈
      (AnomalyDetectionService.detectAnomalies c4Series 8).anomalies ∨
      (⟨8, 500, 150, JSVal.fin (23333 / 100),
        AnomalyDetectionService.AnomSeverity.error⟩ :
        AnomalyDetectionService.AnomalyRecord) ∈
      (AnomalyDetectionService.detectAnomalies c4Series 8).warnings) ∧
    (0 < (AnomalyDetectionService.calculateStatistics
      ((AnomalyDetectionService.recentSlice c4Series 8).map (·.total))).variance ∧
    AnomalyDetectionService.zScoreClass
      (⟨8, 500, 150, JSVal.fin (23333 / 100),
        AnomalyDetectionService.AnomSeverity.error⟩ :
        AnomalyDetectionService.AnomalyRecord).actualCost
      (AnomalyDetectionService.calculateStatistics
        ((AnomalyDetectionService.recentSlice c4Series 8).map (·.total))).mean
      (AnomalyDetectionService.calculateStatistics
        ((AnomalyDetectionService.recentSlice c4Series 8).map (·.total))).variance =
      AnomalyDetectionService.JSClass.finite) := by
  have hmem : (⟨8, 500, 150, JSVal.fin (23333 / 100),
      AnomalyDetectionService.AnomSeverity.error⟩ :
      AnomalyDetectionService.AnomalyRecord) ∈
      (AnomalyDetectionService.detectAnomalies c4Series 8).anomalies := by
    have : (AnomalyDetectionService.detectAnomalies c4Series 8).anomalies =
        [⟨8, 500, 150, JSVal.fin (23333 / 100),
          AnomalyDetectionService.AnomSeverity.error⟩] := by
      norm_num [AnomalyDetectionService.detectAnomalies, AnomalyDetectionService.recentSlice,
        AnomalyDetectionService.calculateStatistics, AnomalyDetectionService.anomaliesOf,
        AnomalyDetectionService.warningsOf, AnomalyDetectionService.mkAnomalyRecord,
        AnomalyDetectionService.exceedsCheck, c4Series, roundTo2, jsToFixed2, JSVal.div,
        JSVal.sub, JSVal.add, JSVal.neg, JSVal.mul, List.filter_cons]
    rw [this]
    exact List.mem_singleton.mpr rfl
  exact ⟨Or.inl hmem, c9_emitted_zscore_finite c4Series 8 _ (Or.inl hmem)⟩

theorem mem_identify_nil_single (r : Resource) (o : AnalyticsEngine.Opportunity) :
    o ∈ AnalyticsEngine.identifyOptimizationOpportunities [] [r] ↔
    o ∈ AnalyticsEngine.resourceOpportunities r := by
  unfold AnalyticsEngine.identifyOptimizationOpportunities
  rw [List.Perm.mem_iff (List.perm_insertionSort _ _)]
  simp

/-- C3, counterexample.  The claimed thresholds are wrong in both
generators: a resource at `cpu = 25, memory = 25` (both below 30, so the
claim demands a rightsizing recommendation) produces NO opportunity in
`AnalyticsEngine.identifyOptimizationOpportunities` (its cutoff is 20,
not 30), while a resource at `cpu = 35, memory = 10` (cpu above 30, so the
claim demands none) DOES produce a rightsizing recommendation in
`AIInsightsEngine.generateRightsizingRecommendations` (its rule is
`avg < 40 && cpu < 50 && memory < 50`). -/
theorem c3_thresholds_counterexample :
    AnalyticsEngine.identifyOptimizationOpportunities [] [⟨some ⟨25, 25⟩, 100⟩] = [] ∧
    AIInsightsEngine.generateRightsizingRecommendations [⟨some ⟨35, 10⟩, 100⟩] ≠ [] := by
  constructor
  · norm_num [AnalyticsEngine.identifyOptimizationOpportunities,
      AnalyticsEngine.resourceOpportunities, AnalyticsEngine.serviceOpportunities,
      List.insertionSort]
  · norm_num [AIInsightsEngine.generateRightsizingRecommendations, List.filterMap_cons]

/-- C3, amended.  For a resource with utilization `u`:
`AIInsightsEngine.generateRightsizingRecommendations` emits a rightsizing
recommendation exactly when `(cpu + memory)/2 < 40` and `cpu < 50` and
`memory < 50`, with priority `high` exactly when `(cpu + memory)/2 < 20`
(else `medium`) and `estimatedSavings = cost * 0.4` rounded to two
decimals; `AnalyticsEngine.identifyOptimizationOpportunities` emits its
`underutilized_resource` opportunity exactly when `cpu < 20` and
`memory < 20`, with priority `high` exactly when `cpu < 10` and savings
`cost * 0.4` exactly. -/
theorem c3_rightsizing_rules (r : Resource) (u : Utilization)
    (hu : r.utilization = some u) :
    (AIInsightsEngine.generateRightsizingRecommendations [r] =
      if (u.cpu + u.memory) / 2 < 40 ∧ u.cpu < 50 ∧ u.memory < 50 then
        [{ priority := if (u.cpu + u.memory) / 2 < 20 then .high else .medium
           cpu := u.cpu
           memory := u.memory
           cost := r.cost
           estimatedSavings := roundTo2 (r.cost * (4 / 10))
           savingsPercentage := 40
           aiConfidence := min 95 (70 + (40 - (u.cpu + u.memory) / 2)) }]
      else []) ∧
    (AnalyticsEngine.Opportunity.underutilizedResource u.cpu u.memory r.cost
        (if u.cpu < 10 then .high else .medium) (r.cost * (40 / 100)) ∈
      AnalyticsEngine.identifyOptimizationOpportunities [] [r] ↔
      (u.cpu < 20 ∧ u.memory < 20)) := by
  constructor
  · simp only [AIInsightsEngine.generateRightsizingRecommendations,
      List.filterMap_cons, List.filterMap_nil, hu]
    by_cases h : (u.cpu + u.memory) / 2 < 40 ∧ u.cpu < 50 ∧ u.memory < 50
    · rw [if_pos h]
      simp only [if_pos h]
    · rw [if_neg h]
      simp only [if_neg h]
  · rw [mem_identify_nil_single]
    unfold AnalyticsEngine.resourceOpportunities
    rw [hu]
    by_cases h1 : u.cpu < 20 ∧ u.memory < 20
    · by_cases h2 : u.cpu < 5 ∧ u.memory < 5 <;> simp [h1, h2]
    · by_cases h2 : u.cpu < 5 ∧ u.memory < 5 <;> simp [h1, h2]

/-- Witness for C3 (amended) at the resource `{cpu: 15, memory: 10,
cost: 200}`. -/
theorem c3_rightsizing_rules_witness :
    (⟨some ⟨15, 10⟩, 200⟩ : Resource).utilization = some ⟨15, 10⟩ ∧
    ((AIInsightsEngine.generateRightsizingRecommendations [⟨some ⟨15, 10⟩, 200⟩] =
      if ((15 : ℚ) + 10) / 2 < 40 ∧ (15 : ℚ) < 50 ∧ (10 : ℚ) < 50 then
        [{ priority := if ((15 : ℚ) + 10) / 2 < 20 then .high else .medium
           cpu := 15
           memory := 10
           cost := 200
           estimatedSavings := roundTo2 (200 * (4 / 10))
           savingsPercentage := 40
           aiConfidence := min 95 (70 + (40 - ((15 : ℚ) + 10) / 2)) }]
      else []) ∧
    (AnalyticsEngine.Opportunity.underutilizedResource 15 10 200
        (if (15 : ℚ) < 10 then .high else .medium) (200 * (40 / 100)) ∈
      AnalyticsEngine.identifyOptimizationOpportunities [] [⟨some ⟨15, 10⟩, 200⟩] ↔
      ((15 : ℚ) < 20 ∧ (10 : ℚ) < 20))) :=
  ⟨rfl, c3_rightsizing_rules ⟨some ⟨15, 10⟩, 200⟩ ⟨15, 10⟩ rfl⟩

theorem roundTo2_cents (m : ℤ) : roundTo2 ((m : ℚ) / 100) = (m : ℚ) / 100 := by
  unfold roundTo2
  rw [div_mul_cancel₀ _ (by norm_num : (100 : ℚ) ≠ 0), Int.floor_int_add]
  norm_num

/-- C8, counterexample.  `AIInsightsEngine.generateIdleResourceRecommendations`
rounds the savings with `toFixed(2)`: for an idle resource of cost `1/8`
(0.125) the emitted `estimatedSavings` is `0.13`, not the exact full
cost. -/
theorem c8_savings_rounded_counterexample :
    ((AIInsightsEngine.generateIdleResourceRecommendations
      [⟨some ⟨1, 1⟩, 1 / 8⟩]).map (·.estimatedSavings)) = [13 / 100] ∧
    (13 / 100 : ℚ) ≠ 1 / 8 := by
  constructor
  · norm_num [AIInsightsEngine.generateIdleResourceRecommendations,
      List.filterMap_cons, roundTo2]
  · norm_num

/-- C8, amended.  For every resource with utilization where `cpu < 5` and
`memory < 5`: `AIInsightsEngine.generateIdleResourceRecommendations` emits
one idle recommendation with priority `high`, `savingsPercentage = 100`
and `estimatedSavings` equal to the cost rounded to two decimals (hence
exactly the full cost whenever the cost is a whole number of cents), and
`AnalyticsEngine.identifyOptimizationOpportunities` emits its
`idle_resource` opportunity with priority `high` and savings exactly the
full cost. -/
theorem c8_idle_full_cost (r : Resource) (u : Utilization)
    (hu : r.utilization = some u) (hcpu : u.cpu < 5) (hmem : u.memory < 5) :
    AIInsightsEngine.generateIdleResourceRecommendations [r] =
      [{ priority := .high
         cpu := u.cpu
         memory := u.memory
         cost := r.cost
         suggestTerminate := decide (u.cpu < 2)
         estimatedSavings := roundTo2 r.cost
         savingsPercentage := 100
         aiConfidence := 85 }] ∧
    AnalyticsEngine.Opportunity.idleResource u.cpu u.memory r.cost .high r.cost ∈
      AnalyticsEngine.identifyOptimizationOpportunities [] [r] ∧
    (∀ m : ℤ, r.cost = (m : ℚ) / 100 → roundTo2 r.cost = r.cost) := by
  refine ⟨?_, ?_, ?_⟩
  · simp only [AIInsightsEngine.generateIdleResourceRecommendations,
      List.filterMap_cons, List.filterMap_nil, hu]
    rw [if_pos ⟨hcpu, hmem⟩]
  · rw [mem_identify_nil_single]
    unfold AnalyticsEngine.resourceOpportunities
    rw [hu]
    simp [hcpu, hmem]
  · intro m hm
    rw [hm]
    exact roundTo2_cents m

/-- Witness for C8 at the idle resource `{cpu: 1, memory: 2, cost: 44}`. -/
theorem c8_idle_full_cost_witness :
    ((⟨some ⟨1, 2⟩, 44⟩ : Resource).utilization = some ⟨1, 2⟩ ∧
      (1 : ℚ) < 5 ∧ (2 : ℚ) < 5) ∧
    (AIInsightsEngine.generateIdleResourceRecommendations [⟨some ⟨1, 2⟩, 44⟩] =
      [{ priority := .high
         cpu := 1
         memory := 2
         cost := 44
         suggestTerminate := decide ((1 : ℚ) < 2)
         estimatedSavings := roundTo2 44
         savingsPercentage := 100
         aiConfidence := 85 }] ∧
    AnalyticsEngine.Opportunity.idleResource 1 2 44 .high 44 ∈
      AnalyticsEngine.identifyOptimizationOpportunities [] [⟨some ⟨1, 2⟩, 44⟩] ∧
    (∀ m : ℤ, (44 : ℚ) = (m : ℚ) / 100 → roundTo2 44 = 44)) :=
  ⟨⟨rfl, by norm_num, by norm_num⟩,
    c8_idle_full_cost ⟨some ⟨1, 2⟩, 44⟩ ⟨1, 2⟩ rfl (by norm_num) (by norm_num)⟩

theorem arithSeries_map_cost (a d : ℚ) (n : ℕ) :
    (arithSeries a d n).map (·.cost) = (List.range n).map fun i : ℕ => a + d * (i : ℚ) := by
  simp only [arithSeries, List.map_map]
  rfl

theorem arith_sum (a d : ℚ) (n : ℕ) :
    ((List.range n).map fun i : ℕ => a + d * (i : ℚ)).sum =
      (n : ℚ) * a + d * ((n : ℚ) * ((n : ℚ) - 1)) / 2 := by
  induction n with
  | zero => simp
  | succ m ih =>
    rw [List.range_succ, List.map_append, List.sum_append, ih]
    push_cast
    simp only [List.map_cons, List.map_nil, List.sum_cons, List.sum_nil]
    ring

theorem sumIdxCost_append_single (l : List ℚ) (c : ℚ) (k : ℕ) :
    AnalyticsEngine.sumIdxCost (l ++ [c]) k =
      AnalyticsEngine.sumIdxCost l k + ((k : ℚ) + (l.length : ℚ) + 1) * c := by
  induction l generalizing k with
  | nil =>
    simp [AnalyticsEngine.sumIdxCost]
  | cons a t ih =>
    rw [List.cons_append]
    simp only [AnalyticsEngine.sumIdxCost]
    rw [ih (k + 1)]
    simp only [List.length_cons]
    push_cast
    ring

theorem arith_sumIdxCost (a d : ℚ) (n : ℕ) :
    AnalyticsEngine.sumIdxCost ((List.range n).map fun i : ℕ => a + d * (i : ℚ)) 0 =
      a * ((n : ℚ) * ((n : ℚ) + 1)) / 2 +
        d * ((n : ℚ) * ((n : ℚ) - 1) * ((n : ℚ) + 1)) / 3 := by
  induction n with
  | zero => simp [AnalyticsEngine.sumIdxCost]
  | succ m ih =>
    rw [List.range_succ, List.map_append]
    simp only [List.map_cons, List.map_nil]
    rw [sumIdxCost_append_single, ih]
    simp only [List.length_map, List.length_range]
    push_cast
    ring

theorem analyzeCostTrends_trend_of_len (l : List AnalyticsEngine.CostPoint)
    (h : ¬ l.length < 7) :
    (AnalyticsEngine.analyzeCostTrends l).trend =
      (if (AnalyticsEngine.analyzeCostTrends l).slope.getD 0 <
          -((AnalyticsEngine.analyzeCostTrends l).averageDaily * (1 / 100)) then
        AnalyticsEngine.Trend.decreasing
      else if (AnalyticsEngine.analyzeCostTrends l).averageDaily * (1 / 100) <
          (AnalyticsEngine.analyzeCostTrends l).slope.getD 0 then
        AnalyticsEngine.Trend.increasing
      else AnalyticsEngine.Trend.stable) := by
  simp only [AnalyticsEngine.analyzeCostTrends, if_neg h]
  rfl

/-- C5, counterexample.  The strictly increasing arithmetic series
`1000, 1001, ..., 1006` (7 points, common difference 1) is classified
`stable`, not `increasing`: the OLS slope is 1 but 1% of the mean daily
cost is 10.03, so the claimed conclusion that every strictly increasing
arithmetic series yields `increasing` fails. -/
theorem c5_small_slope_is_stable :
    (AnalyticsEngine.analyzeCostTrends
      [⟨0, 1000⟩, ⟨1, 1001⟩, ⟨2, 1002⟩, ⟨3, 1003⟩, ⟨4, 1004⟩, ⟨5, 1005⟩,
        ⟨6, 1006⟩]).trend = AnalyticsEngine.Trend.stable ∧
    AnalyticsEngine.Trend.stable ≠ AnalyticsEngine.Trend.increasing := by
  refine ⟨?_, by simp⟩
  have h : ¬ ([(⟨0, 1000⟩ : AnalyticsEngine.CostPoint), ⟨1, 1001⟩, ⟨2, 1002⟩,
      ⟨3, 1003⟩, ⟨4, 1004⟩, ⟨5, 1005⟩, ⟨6, 1006⟩]).length < 7 := by decide
  simp only [AnalyticsEngine.analyzeCostTrends, if_neg h]
  norm_num [AnalyticsEngine.sumIdxCost]

/-- C5, amended.  For every arithmetic series of length at least 7 with
first value `a` and common difference `d`, `analyzeCostTrends` computes
OLS slope exactly `d` and mean daily cost `M = a + d(n-1)/2`, and
classifies the trend by the rule of the source: `decreasing` if
`d < -(M * 0.01)`, else `increasing` if `d > M * 0.01`, else `stable`.
In particular a strictly increasing arithmetic series is classified
`increasing` exactly when its common difference exceeds 1% of the mean
daily cost, and a constant series with nonnegative values is `stable`. -/
theorem c5_arith_trend_rule (a d : ℚ) (n : ℕ) (hn : 7 ≤ n) :
    (AnalyticsEngine.analyzeCostTrends (arithSeries a d n)).slope = some d ∧
    (AnalyticsEngine.analyzeCostTrends (arithSeries a d n)).averageDaily =
      a + d * ((n : ℚ) - 1) / 2 ∧
    (AnalyticsEngine.analyzeCostTrends (arithSeries a d n)).trend =
      (if d < -((a + d * ((n : ℚ) - 1) / 2) * (1 / 100)) then
        AnalyticsEngine.Trend.decreasing
      else if (a + d * ((n : ℚ) - 1) / 2) * (1 / 100) < d then
        AnalyticsEngine.Trend.increasing
      else AnalyticsEngine.Trend.stable) := by
  have hlen : (arithSeries a d n).length = n := by
    simp [arithSeries]
  have hnot : ¬ (arithSeries a d n).length < 7 := by
    rw [hlen]; omega
  have hN : (7 : ℚ) ≤ (n : ℚ) := by exact_mod_cast hn
  have hn0 : (n : ℚ) ≠ 0 := by nlinarith
  have hs : (AnalyticsEngine.analyzeCostTrends (arithSeries a d n)).slope = some d := by
    simp only [AnalyticsEngine.analyzeCostTrends, if_neg hnot]
    rw [arithSeries_map_cost, arith_sum, arith_sumIdxCost]
    simp only [List.length_map, List.length_range]
    congr 1
    have hD : (n : ℚ) * ((n : ℚ) * ((n : ℚ) + 1) * (2 * (n : ℚ) + 1) / 6) -
        (n : ℚ) * ((n : ℚ) + 1) / 2 * ((n : ℚ) * ((n : ℚ) + 1) / 2) ≠ 0 := by
      have : (n : ℚ) * ((n : ℚ) * ((n : ℚ) + 1) * (2 * (n : ℚ) + 1) / 6) -
          (n : ℚ) * ((n : ℚ) + 1) / 2 * ((n : ℚ) * ((n : ℚ) + 1) / 2) =
          (n : ℚ) ^ 2 * ((n : ℚ) + 1) * ((n : ℚ) - 1) / 12 := by ring
      rw [this]
      have h1 : (0 : ℚ) < (n : ℚ) ^ 2 := by positivity
      have h2 : (0 : ℚ) < (n : ℚ) + 1 := by nlinarith
      have h3 : (0 : ℚ) < (n : ℚ) - 1 := by nlinarith
      positivity
    rw [div_eq_iff hD]
    ring
  have ha : (AnalyticsEngine.analyzeCostTrends (arithSeries a d n)).averageDaily =
      a + d * ((n : ℚ) - 1) / 2 := by
    simp only [AnalyticsEngine.analyzeCostTrends, if_neg hnot]
    rw [arithSeries_map_cost, arith_sum]
    simp only [List.length_map, List.length_range]
    rw [div_eq_iff hn0]
    ring
  refine ⟨hs, ha, ?_⟩
  rw [analyzeCostTrends_trend_of_len _ hnot, hs, ha]
  rfl

/-- Witness for C5 (amended) at `a = 1, d = 1, n = 7`. -/
theorem c5_arith_trend_rule_witness :
    7 ≤ 7 ∧
    ((AnalyticsEngine.analyzeCostTrends (arithSeries 1 1 7)).slope = some 1 ∧
    (AnalyticsEngine.analyzeCostTrends (arithSeries 1 1 7)).averageDaily =
      1 + 1 * (((7 : ℕ) : ℚ) - 1) / 2 ∧
    (AnalyticsEngine.analyzeCostTrends (arithSeries 1 1 7)).trend =
      (if (1 : ℚ) < -((1 + 1 * (((7 : ℕ) : ℚ) - 1) / 2) * (1 / 100)) then
        AnalyticsEngine.Trend.decreasing
      else if (1 + 1 * (((7 : ℕ) : ℚ) - 1) / 2) * (1 / 100) < (1 : ℚ) then
        AnalyticsEngine.Trend.increasing
      else AnalyticsEngine.Trend.stable)) :=
  ⟨le_refl 7, c5_arith_trend_rule 1 1 7 (le_refl 7)⟩

theorem roundTo2_mono {a b : ℚ} (h : a ≤ b) : roundTo2 a ≤ roundTo2 b := by
  unfold roundTo2
  have := Int.floor_le_floor (α := ℚ) (show a * 100 + 1 / 2 ≤ b * 100 + 1 / 2 by linarith)
  have hc : ((⌊a * 100 + 1 / 2⌋ : ℚ)) ≤ ((⌊b * 100 + 1 / 2⌋ : ℚ)) := by exact_mod_cast this
  linarith

theorem roundTo2_nonneg {a : ℚ} (h : 0 ≤ a) : 0 ≤ roundTo2 a := by
  unfold roundTo2
  have : (0 : ℤ) ≤ ⌊a * 100 + 1 / 2⌋ := Int.floor_nonneg.mpr (by linarith)
  have hc : (0 : ℚ) ≤ ((⌊a * 100 + 1 / 2⌋ : ℚ)) := by exact_mod_cast this
  linarith

theorem forecastB_confidence_getD (trendData : List ℚ) (days i : ℕ) :
    ((CostAnalyticsService.forecastCosts trendData days).forecast.getD i
      defaultPointB).confidence =
    if i < days then roundTo2 (max (7 / 10) (1 - ((i : ℚ) + 1) * (1 / 20))) else 0 := by
  rw [List.getD_eq_getElem?_getD]
  by_cases hi : i < days
  · rw [if_pos hi]
    simp only [CostAnalyticsService.forecastCosts]
    rw [List.getElem?_map, List.getElem?_range hi]
    simp
  · rw [if_neg hi]
    simp only [CostAnalyticsService.forecastCosts]
    rw [List.getElem?_eq_none (by simpa using not_lt.mp hi)]
    rfl

/-- C7, counterexample.  The claim fails for
`AnalyticsEngine.forecastCosts`: its forecast points carry no confidence
value at all (the pushed object has only date/predicted/low/high, so the
`confidence` property is `undefined`), exhibited on a 14-day history with
a 5-day horizon. -/
theorem c7_pointA_has_no_confidence :
    ¬ ∀ p ∈ (AnalyticsEngine.forecastCosts (some hist14) 5).forecast,
        (AnalyticsEngine.ForecastPointA.confidenceJS p).isSome := by
  intro h
  have h14 : ¬ hist14.length < 14 := by
    simp [hist14]
  have hlen : (AnalyticsEngine.forecastCosts (some hist14) 5).forecast.length = 5 := by
    simp only [AnalyticsEngine.forecastCosts, if_neg h14]
    simp
  have hne : (AnalyticsEngine.forecastCosts (some hist14) 5).forecast ≠ [] := by
    intro hnil
    rw [hnil] at hlen
    simp at hlen
  obtain ⟨p, hp⟩ := List.exists_mem_of_ne_nil _ hne
  have := h p hp
  simp [AnalyticsEngine.ForecastPointA.confidenceJS] at this

/-- C7, amended.  `CostAnalyticsService.forecastCosts` produces one
forecast point per future day, each carrying
`confidence = max(0.7, 1 - 0.05 i)` (rounded to two decimals), and this
confidence is monotonically non-increasing in the horizon index; the other
strategy, `AnalyticsEngine.forecastCosts`, also produces one point per
future day, but its points carry no per-point confidence (`undefined` on
property access) - only a whole-forecast confidence label. -/
theorem c7_confidence_monotone :
    (∀ (trendData : List ℚ) (days : ℕ),
      (CostAnalyticsService.forecastCosts trendData days).forecast.length = days ∧
      ∀ i j : ℕ, i ≤ j →
        ((CostAnalyticsService.forecastCosts trendData days).forecast.getD j
          defaultPointB).confidence ≤
        ((CostAnalyticsService.forecastCosts trendData days).forecast.getD i
          defaultPointB).confidence) ∧
    (∀ (hist : List AnalyticsEngine.CostPoint) (days : ℕ), 14 ≤ hist.length →
      (AnalyticsEngine.forecastCosts (some hist) days).forecast.length = days ∧
      ∀ p ∈ (AnalyticsEngine.forecastCosts (some hist) days).forecast,
        AnalyticsEngine.ForecastPointA.confidenceJS p = none) := by
  constructor
  · intro trendData days
    constructor
    · simp only [CostAnalyticsService.forecastCosts]
      simp
    · intro i j hij
      rw [forecastB_confidence_getD, forecastB_confidence_getD]
      by_cases hj : j < days
      · have hi : i < days := lt_of_le_of_lt hij hj
        rw [if_pos hi, if_pos hj]
        apply roundTo2_mono
        apply max_le_max (le_refl (7 / 10 : ℚ))
        have : ((i : ℚ) + 1) ≤ ((j : ℚ) + 1) := by
          have : (i : ℚ) ≤ (j : ℚ) := by exact_mod_cast hij
          linarith
        nlinarith
      · rw [if_neg hj]
        by_cases hi : i < days
        · rw [if_pos hi]
          apply roundTo2_nonneg
          have : (0 : ℚ) ≤ 7 / 10 := by norm_num
          exact le_trans this (le_max_left _ _)
        · rw [if_neg hi]
  · intro hist days h14
    refine ⟨?_, fun p _ => rfl⟩
    simp only [AnalyticsEngine.forecastCosts, if_neg (not_lt.mpr h14)]
    simp

/-- Witness for C7 (amended): three-day horizon over a two-day series for
the regression strategy at indices 0 ≤ 1, and a two-day horizon over a
14-day history for the window strategy. -/
theorem c7_confidence_monotone_witness :
    ((CostAnalyticsService.forecastCosts [1, 2] 3).forecast.length = 3 ∧
      ((CostAnalyticsService.forecastCosts [1, 2] 3).forecast.getD 1
        defaultPointB).confidence ≤
        ((CostAnalyticsService.forecastCosts [1, 2] 3).forecast.getD 0
          defaultPointB).confidence) ∧
    (14 ≤ hist14.length ∧
      ((AnalyticsEngine.forecastCosts (some hist14) 2).forecast.length = 2 ∧
        ∀ p ∈ (AnalyticsEngine.forecastCosts (some hist14) 2).forecast,
          AnalyticsEngine.ForecastPointA.confidenceJS p = none)) :=
  ⟨⟨(c7_confidence_monotone.1 [1, 2] 3).1,
      (c7_confidence_monotone.1 [1, 2] 3).2 0 1 (by norm_num)⟩,
    ⟨by simp [hist14], c7_confidence_monotone.2 hist14 2 (by simp [hist14])⟩⟩
